import Mathlib

/-!
# AR_World: heading estimation (`Compass.jsx`, `TripleCompass.jsx`)

A shallow embedding of the angle arithmetic and the sensor handlers of
`app/components/Compass.jsx` and `app/components/TripleCompass.jsx`.

JavaScript numbers are read as elements of an arbitrary linearly ordered
field `K` with a floor function (`ℚ` for evaluation, `ℝ` for the statements
about real angles): arithmetic is exact, rounding error and `NaN` are not
represented.  The sign of a zero is kept where the program can observe it:
sensor samples and the projection that feeds `Math.atan2` are computed on
`JSNum`, the field with a negative zero added.  The mathematical functions
behind `Math.PI`, `Math.atan2` and `Math.hypot` are parameters of the
embedding (`JSMath`); the facts about them that a proof needs are stated as
hypotheses and discharged for the real functions.
-/

/-! ## JavaScript arithmetic -/

section JSArith
variable {K : Type} [LinearOrderedField K] [FloorRing K]

/-- Truncation toward zero: the integer quotient behind JavaScript's `%`. -/
def jsTrunc (x : K) : ℤ := if 0 ≤ x then ⌊x⌋ else ⌈x⌉

/-- JavaScript `a % m` on numbers: `a - m * trunc(a / m)`, a remainder that
carries the sign of the dividend.  Every use in the source has `m = 360`. -/
def jsMod (a m : K) : K := a - m * (jsTrunc (a / m) : K)

/-- JavaScript `Math.round`: the nearest integer, ties toward `+∞`. -/
def mathRound (x : K) : ℤ := ⌊x + 1 / 2⌋

/-- A number whose zero has a sign: a field value (`ofField 0` is `+0`), or
the negative zero. -/
inductive JSNum (K : Type) where
  | ofField (x : K)
  | negZero

namespace JSNum

/-- The value of a number; both zeros have value `0`. -/
def val : JSNum K → K
  | ofField x => x
  | negZero => 0

/-- The sign bit: set for a negative value and for the negative zero. -/
def sgn : JSNum K → Bool
  | ofField x => decide (x < 0)
  | negZero => true

/-- The number with value `v`; when `v` is zero, `s` is its sign bit. -/
def signed (v : K) (s : Bool) : JSNum K :=
  if v = 0 ∧ s = true then negZero else ofField v

/-- JavaScript `a * b`: the sign of a zero product is the exclusive or of the
signs of the factors. -/
def mul (a b : JSNum K) : JSNum K := signed (a.val * b.val) (xor a.sgn b.sgn)

/-- JavaScript `a / b` for a divisor that is not zero: the sign of a zero
quotient is the exclusive or of the signs of the operands. -/
def div (a b : JSNum K) : JSNum K := signed (a.val / b.val) (xor a.sgn b.sgn)

/-- JavaScript `a - b`: a zero difference is negative only for `(-0) - (+0)`;
`x - x` is `+0`. -/
def sub (a b : JSNum K) : JSNum K := signed (a.val - b.val) (a.sgn && !b.sgn)

end JSNum

end JSArith

/-- The three members of JavaScript's `Math` object that the source calls,
as functions of values. -/
structure JSMath (K : Type) where
  /-- `Math.PI` -/
  PI : K
  /-- The two-argument arctangent of the values `y`, `x` -/
  atan2 : K → K → K
  /-- `Math.hypot(x, y, z)` -/
  hypot : K → K → K → K

/-! ## `Compass.jsx` -/

namespace Compass
section
variable {K : Type} [LinearOrderedField K] [FloorRing K]

/-- `const ALPHA = 0.2` (Compass.jsx:7). -/
def ALPHA : K := 0.2

/-- `filterAngle(prev, raw)` (Compass.jsx:11-14). -/
def filterAngle (prev raw : K) : K :=
  let diff := jsMod (raw - prev + 540) 360 - 180
  jsMod (prev + diff * ALPHA + 360) 360

end
end Compass

/-! ## `TripleCompass.jsx` -/

namespace TripleCompass
section
variable {K : Type} [LinearOrderedField K] [FloorRing K]

/-- `const LP_ALPHA = 0.15` (TripleCompass.jsx:15). -/
def LP_ALPHA : K := 0.15

/-- `const COMP_W = 0.98` (TripleCompass.jsx:16). -/
def COMP_W : K := 0.98

/-- `toDeg = r => r * 180 / Math.PI` (TripleCompass.jsx:19). -/
def toDeg (E : JSMath K) (r : K) : K := r * 180 / E.PI

/-- `toRad = d => d * Math.PI / 180` (TripleCompass.jsx:20). -/
def toRad (E : JSMath K) (d : K) : K := d * E.PI / 180

/-- `norm360 = a => (a + 360) % 360` (TripleCompass.jsx:23). -/
def norm360 (a : K) : K := jsMod (a + 360) 360

/-- `diff = (a, b) => ((a - b + 540) % 360) - 180` (TripleCompass.jsx:26). -/
def diff (a b : K) : K := jsMod (a - b + 540) 360 - 180

/-- A sensor sample `{ x, y, z }`. -/
structure Vec3 (K : Type) where
  x : JSNum K
  y : JSNum K
  z : JSNum K

/-- The sample `{ x, y, z }` with the given values, a zero being `+0`. -/
def Vec3.ofField (x y z : K) : Vec3 K := ⟨.ofField x, .ofField y, .ofField z⟩

/-- The component's `useState` cells (lines 31-34) and `useRef` cells
(lines 37-40).  Published headings are the integers `Math.round` returns;
`gpsHeading = none` is the initial `null`. -/
structure State (K : Type) where
  magHeading : ℤ
  trueHeading : ℤ
  gpsHeading : Option ℤ
  calcHeading : ℤ
  gravRef : Vec3 K
  magRef : K
  calcRef : K
  lastGyro : K

/-- The state after the first render; `t0` is the value of `Date.now()` that
`useRef(Date.now())` stored in `lastGyro` (line 40). -/
def init (t0 : K) : State K :=
  { magHeading := 0, trueHeading := 0, gpsHeading := none, calcHeading := 0,
    gravRef := Vec3.ofField 0 0 0, magRef := 0, calcRef := 0, lastGyro := t0 }

/-- Accelerometer listener (line 45): `gravRef.current = a`. -/
def onAccelerometer (s : State K) (a : Vec3 K) : State K :=
  { s with gravRef := a }

/-- Magnetometer listener, line 56: `Math.hypot(ax, ay, az) || 1`; the left
operand of `||` is replaced when it is falsy, which for a number of this
embedding means zero. -/
def gravNorm (E : JSMath K) (grav : Vec3 K) : K :=
  if E.hypot grav.x.val grav.y.val grav.z.val = 0 then 1
  else E.hypot grav.x.val grav.y.val grav.z.val

/-- Magnetometer listener, lines 56-61: the pair `(hx, hy)`, the magnetic
vector projected with the normalised gravity. -/
def horizontal (E : JSMath K) (grav m : Vec3 K) : JSNum K × JSNum K :=
  let g := JSNum.ofField (gravNorm E grav)
  let gx := grav.x.div g
  let gy := grav.y.div g
  let gz := grav.z.div g
  let hx := (m.y.mul gz).sub (m.z.mul gy)
  let hy := (m.z.mul gx).sub (m.x.mul gz)
  (hx, hy)

/-- JavaScript `Math.atan2(y, x)`: when `y` is a zero and `x` is negative or
`-0` the result is `π` for `+0` and `-π` for `-0`; otherwise it is the
arctangent of the two values (a result `-0` is read as `0`). -/
def jsAtan2 (E : JSMath K) (y x : JSNum K) : K :=
  if y.val = 0 ∧ x.sgn = true then (if y.sgn = true then -E.PI else E.PI)
  else E.atan2 y.val x.val

/-- Magnetometer listener, lines 53-64: the tilt-compensated raw heading. -/
def rawMag (E : JSMath K) (grav m : Vec3 K) : K :=
  let h := horizontal E grav m
  let mag := toDeg E (jsAtan2 E h.2 h.1)
  if mag < 0 then mag + 360 else mag

/-- Magnetometer listener, line 67: the low-pass step on the raw heading. -/
def smoothMag (prev raw : K) : K := norm360 (prev + diff raw prev * LP_ALPHA)

/-- Magnetometer listener (lines 52-70). -/
def onMagnetometer (E : JSMath K) (s : State K) (m : Vec3 K) : State K :=
  let mag := smoothMag s.magRef (rawMag E s.gravRef m)
  { s with magRef := mag, magHeading := mathRound mag }

/-- Gyroscope listener, lines 79 and 83: the heading increment in degrees. -/
def gyroDelta (E : JSMath K) (z now last : K) : K :=
  let dt := (now - last) / 1000
  toDeg E z * dt

/-- Gyroscope listener, lines 88-90: the complementary filter. -/
def fuse (gyroIntegrated mag : K) : K :=
  norm360 (COMP_W * gyroIntegrated + (1 - COMP_W) * (gyroIntegrated - diff gyroIntegrated mag))

/-- Gyroscope listener (lines 77-94); `now` is the value of `Date.now()`. -/
def onGyroscope (E : JSMath K) (s : State K) (z now : K) : State K :=
  let delta := gyroDelta E z now s.lastGyro
  let gyroIntegrated := norm360 (s.calcRef + delta)
  let fused := fuse gyroIntegrated s.magRef
  { s with lastGyro := now, calcRef := fused, calcHeading := mathRound fused }

/-- Heading callback (lines 103-105):
`setTrueHeading(Math.round(h.trueHeading ?? h.magHeading ?? 0))`; a field that
is `null` or `undefined` is `none`. -/
def onHeading (s : State K) (trueHeading magHeading : Option K) : State K :=
  let h := match trueHeading, magHeading with
    | some t, _ => t
    | none, some g => g
    | none, none => 0
  { s with trueHeading := mathRound h }

/-- JavaScript's conversion to a number of a value that is a number or
`null` (`none`): `null` becomes `0`.  It is what `>=` and `Math.round` apply
to their operand. -/
def toNumber : Option K → K
  | some x => x
  | none => 0

/-- Position callback (lines 121-125); `h` is `loc.coords.heading`, a number
or `null`. -/
def onPosition (s : State K) (h : Option K) : State K :=
  if toNumber h ≥ 0 then { s with gpsHeading := some (mathRound (toNumber h)) } else s

/-- One notification delivered to the component by a subscription. -/
inductive Event (K : Type) where
  | accelerometer (a : Vec3 K)
  | magnetometer (m : Vec3 K)
  | gyroscope (z now : K)
  | heading (trueHeading magHeading : Option K)
  | position (h : Option K)

/-- The listener that a notification runs. -/
def step (E : JSMath K) (s : State K) : Event K → State K
  | .accelerometer a => onAccelerometer s a
  | .magnetometer m => onMagnetometer E s m
  | .gyroscope z now => onGyroscope E s z now
  | .heading t g => onHeading s t g
  | .position h => onPosition s h

/-- The notifications are handled one at a time, in order of arrival. -/
def run (E : JSMath K) (s : State K) (evs : List (Event K)) : State K :=
  evs.foldl (step E) s

end
end TripleCompass

/-! ## Remainder lemmas -/

section ModLemmas
variable {K : Type} [LinearOrderedField K] [FloorRing K]

theorem jsMod_nonneg_window (a : K) (k : ℤ) (h0 : 0 ≤ a)
    (h1 : 360 * (k : K) ≤ a) (h2 : a < 360 * ((k : K) + 1)) :
    jsMod a 360 = a - 360 * (k : K) := by
  have hq : (0 : K) ≤ a / 360 := div_nonneg h0 (by norm_num)
  have hf : ⌊a / 360⌋ = k := by
    rw [Int.floor_eq_iff]
    constructor
    · rw [le_div_iff₀ (by norm_num : (0 : K) < 360)]; linarith
    · rw [div_lt_iff₀ (by norm_num : (0 : K) < 360)]; linarith
  simp only [jsMod, jsTrunc, if_pos hq, hf]

theorem jsMod_neg_window (a : K) (k : ℤ) (h0 : a < 0)
    (h1 : 360 * ((k : K) - 1) < a) (h2 : a ≤ 360 * (k : K)) :
    jsMod a 360 = a - 360 * (k : K) := by
  have hq : ¬ (0 : K) ≤ a / 360 := not_le.mpr (div_neg_of_neg_of_pos h0 (by norm_num))
  have hf : ⌈a / 360⌉ = k := by
    rw [Int.ceil_eq_iff]
    constructor
    · rw [lt_div_iff₀ (by norm_num : (0 : K) < 360)]; linarith
    · rw [div_le_iff₀ (by norm_num : (0 : K) < 360)]; linarith
  simp only [jsMod, jsTrunc, if_neg hq, hf]

end ModLemmas

section ModLemmas2
variable {K : Type} [LinearOrderedField K] [FloorRing K]

theorem jsMod_nonneg_spec (a : K) (h0 : 0 ≤ a) :
    ∃ k : ℤ, jsMod a 360 = a - 360 * (k : K) ∧ 0 ≤ jsMod a 360 ∧ jsMod a 360 < 360 := by
  have h360 : (0 : K) < 360 := by norm_num
  have h1 : 360 * ((⌊a / 360⌋ : ℤ) : K) ≤ a := by
    have := Int.floor_le (a / 360)
    rw [le_div_iff₀ h360] at this; linarith
  have h2 : a < 360 * (((⌊a / 360⌋ : ℤ) : K) + 1) := by
    have := Int.lt_floor_add_one (a / 360)
    rw [div_lt_iff₀ h360] at this; linarith
  refine ⟨⌊a / 360⌋, jsMod_nonneg_window a _ h0 h1 h2, ?_, ?_⟩
  · rw [jsMod_nonneg_window a _ h0 h1 h2]; linarith
  · rw [jsMod_nonneg_window a _ h0 h1 h2]; linarith

namespace TripleCompass

theorem norm360_spec (a : K) (ha : -360 ≤ a) :
    ∃ k : ℤ, norm360 a = a + 360 * (k : K) ∧ 0 ≤ norm360 a ∧ norm360 a < 360 := by
  obtain ⟨k, hk, hlo, hhi⟩ := jsMod_nonneg_spec (a + 360) (by linarith)
  refine ⟨1 - k, ?_, hlo, hhi⟩
  simp only [norm360]
  rw [hk]; push_cast; ring

theorem norm360_unique (a r : K) (k : ℤ) (ha : -360 ≤ a) (hr0 : 0 ≤ r) (hr1 : r < 360)
    (hk : r = a + 360 * (k : K)) : norm360 a = r := by
  have := jsMod_nonneg_window (a + 360) (1 - k) (by linarith)
    (by push_cast; linarith) (by push_cast; linarith)
  simp only [norm360]
  rw [this]; push_cast; linarith

theorem norm360_of_heading (a : K) (h0 : 0 ≤ a) (h1 : a < 360) : norm360 a = a :=
  norm360_unique a a 0 (by linarith) h0 h1 (by simp)

theorem diff_spec (a b : K) (h : -540 ≤ a - b) :
    ∃ k : ℤ, diff a b = a - b + 360 * (k : K) ∧ -180 ≤ diff a b ∧ diff a b < 180 := by
  obtain ⟨k, hk, hlo, hhi⟩ := jsMod_nonneg_spec (a - b + 540) (by linarith)
  refine ⟨1 - k, ?_, ?_, ?_⟩
  · simp only [diff]; rw [hk]; push_cast; ring
  · simp only [diff]; linarith
  · simp only [diff]; linarith

theorem diff_unique (a b d : K) (k : ℤ) (h : -540 ≤ a - b) (hd0 : -180 ≤ d) (hd1 : d < 180)
    (hk : d = a - b + 360 * (k : K)) : diff a b = d := by
  have := jsMod_nonneg_window (a - b + 540) (1 - k) (by linarith)
    (by push_cast; linarith) (by push_cast; linarith)
  simp only [diff]
  rw [this]; push_cast; linarith

end TripleCompass
end ModLemmas2

/-! ## The angle helpers -/

namespace TripleCompass

/-- C1 (evaluation at the failing input): `norm360(-400)` is `-40`, which is
not in `[0, 360)`: the single `+ 360` before `%` does not lift an argument
below `-360` to a non-negative dividend, and `%` keeps the dividend's sign. -/
theorem norm360_neg400 :
    norm360 (-400 : ℚ) = -40 ∧ ¬ (0 ≤ norm360 (-400 : ℚ) ∧ norm360 (-400 : ℚ) < 360) := by
  have h : norm360 (-400 : ℚ) = -40 := by
    have := jsMod_neg_window (-400 + 360 : ℚ) 0 (by norm_num) (by norm_num) (by norm_num)
    simp only [norm360]
    rw [this]; norm_num
  refine ⟨h, ?_⟩
  rw [h]; norm_num

/-- C2 (counterexample): `diff(180, 0)` is `-180`, not a value strictly above
`-180`; and `diff(0, 1000)` is `-280`, outside the interval altogether. -/
theorem diff_not_in_Ioc :
    diff (180 : ℚ) 0 = -180 ∧ ¬ (-180 < diff (180 : ℚ) 0 ∧ diff (180 : ℚ) 0 ≤ 180) ∧
    diff (0 : ℚ) 1000 = -280 := by
  have h : diff (180 : ℚ) 0 = -180 :=
    diff_unique 180 0 (-180) (-1) (by norm_num) (by norm_num) (by norm_num) (by norm_num)
  have h2 : diff (0 : ℚ) 1000 = -280 := by
    have := jsMod_neg_window (0 - 1000 + 540 : ℚ) (-1) (by norm_num) (by norm_num) (by norm_num)
    simp only [diff]
    rw [this]; norm_num
  refine ⟨h, ?_, h2⟩
  rw [h]; norm_num

/-- C2 (amended): whenever `a - b ≥ -540`, in particular for two headings in
`[0, 360)`, `diff a b` lies in the half-open interval `[-180, 180)`. -/
theorem diff_range {K : Type} [LinearOrderedField K] [FloorRing K] (a b : K)
    (h : -540 ≤ a - b) : -180 ≤ diff a b ∧ diff a b < 180 := by
  obtain ⟨_, _, hlo, hhi⟩ := diff_spec a b h
  exact ⟨hlo, hhi⟩

theorem diff_range_witness :
    -540 ≤ (180 : ℚ) - 0 ∧ (-180 ≤ diff (180 : ℚ) 0 ∧ diff (180 : ℚ) 0 < 180) :=
  ⟨by norm_num, diff_range 180 0 (by norm_num)⟩

end TripleCompass

/-! ## Circular blending -/

section Blend
variable {K : Type} [LinearOrderedField K] [FloorRing K]

namespace TripleCompass

/-- The low-pass expression `norm360(prev + diff(raw, prev) * α)` for a gain
`0 ≤ α ≤ 1` and two headings: the result is a heading, and it sits at
`diff(raw, prev) * α` from `prev`. -/
theorem blend_spec (prev raw α : K) (hp0 : 0 ≤ prev) (hp1 : prev < 360)
    (hr0 : 0 ≤ raw) (hα0 : 0 ≤ α) (hα1 : α ≤ 1) :
    (0 ≤ norm360 (prev + diff raw prev * α) ∧ norm360 (prev + diff raw prev * α) < 360) ∧
    diff (norm360 (prev + diff raw prev * α)) prev = diff raw prev * α := by
  obtain ⟨k, _, hlo, hhi⟩ := diff_spec raw prev (by linarith)
  have hb0 : -180 ≤ diff raw prev * α := by nlinarith
  have hb1 : diff raw prev * α < 180 := by nlinarith
  obtain ⟨j, hj, hn0, hn1⟩ := norm360_spec (prev + diff raw prev * α) (by linarith)
  refine ⟨⟨hn0, hn1⟩, ?_⟩
  exact diff_unique _ prev _ (-j) (by linarith) hb0 hb1 (by rw [hj]; push_cast; ring)

/-- The complementary filter on two headings: the result is a heading whose
signed distance from the magnetic reference is `COMP_W` times the old one. -/
theorem fuse_spec (g m : K) (hg0 : 0 ≤ g) (hm1 : m < 360) :
    (0 ≤ fuse g m ∧ fuse g m < 360) ∧ diff (fuse g m) m = COMP_W * diff g m := by
  obtain ⟨i, hi, hlo, hhi⟩ := diff_spec g m (by linarith)
  have hW : (COMP_W : K) = 98 / 100 := by simp only [COMP_W]; norm_num
  have harg : COMP_W * g + (1 - COMP_W) * (g - diff g m) = g - 2 / 100 * diff g m := by
    rw [hW]; ring
  obtain ⟨j, hj, hn0, hn1⟩ := norm360_spec (g - 2 / 100 * diff g m) (by linarith)
  have hf : fuse g m = norm360 (g - 2 / 100 * diff g m) := by
    simp only [fuse]; rw [harg]
  rw [hf]
  refine ⟨⟨hn0, hn1⟩, ?_⟩
  refine diff_unique _ m _ (i - j) (by linarith) (by rw [hW]; linarith) (by rw [hW]; linarith) ?_
  rw [hj, hW]; push_cast; linarith

omit [FloorRing K] in
/-- A gyroscope sample with zero angular rate: the increment is zero. -/
theorem gyroDelta_zero_rate (E : JSMath K) (now last : K) : gyroDelta E 0 now last = 0 := by
  simp [gyroDelta, toDeg]

/-- A gyroscope sample with zero rate on a heading `calcRef`: the fused value
is `fuse calcRef magRef`, and the magnetic reference is left alone. -/
theorem onGyroscope_zero_rate (E : JSMath K) (s : State K) (now : K)
    (hc0 : 0 ≤ s.calcRef) (hc1 : s.calcRef < 360) :
    (onGyroscope E s 0 now).calcRef = fuse s.calcRef s.magRef ∧
    (onGyroscope E s 0 now).magRef = s.magRef := by
  simp only [onGyroscope, gyroDelta_zero_rate, add_zero, norm360_of_heading _ hc0 hc1, and_self]

theorem run_zero_rate (E : JSMath K) (nows : List K) :
    ∀ s : State K, 0 ≤ s.calcRef → s.calcRef < 360 → 0 ≤ s.magRef → s.magRef < 360 →
      diff (run E s (nows.map (Event.gyroscope 0))).calcRef s.magRef
        = COMP_W ^ nows.length * diff s.calcRef s.magRef := by
  induction nows with
  | nil => intro s _ _ _ _; simp [run]
  | cons t ts ih =>
    intro s hc0 hc1 hm0 hm1
    obtain ⟨hcalc, hmag⟩ := onGyroscope_zero_rate E s t hc0 hc1
    obtain ⟨⟨hf0, hf1⟩, hfd⟩ := fuse_spec s.calcRef s.magRef hc0 hm1
    have := ih (onGyroscope E s 0 t) (by rw [hcalc]; exact hf0) (by rw [hcalc]; exact hf1)
      (by rw [hmag]; exact hm0) (by rw [hmag]; exact hm1)
    rw [hmag, hcalc, hfd] at this
    simp only [run, List.map_cons, List.foldl_cons, step, List.length_cons] at this ⊢
    rw [this]; ring

end TripleCompass
end Blend

/-- C3: for `prev` and `raw` in `[0, 360)`, `filterAngle(prev, raw)` is in
`[0, 360)`, its shortest signed difference from `prev` is `ALPHA` times that
of `raw` from `prev`, hence at most 36 degrees in size; and
`filterAngle(359, 1) = 359.4`. -/
theorem Compass.filterAngle_short_arc {K : Type} [LinearOrderedField K] [FloorRing K]
    (prev raw : K) (hp : 0 ≤ prev ∧ prev < 360) (hr : 0 ≤ raw ∧ raw < 360) :
    (0 ≤ Compass.filterAngle prev raw ∧ Compass.filterAngle prev raw < 360) ∧
    TripleCompass.diff (Compass.filterAngle prev raw) prev
      = Compass.ALPHA * TripleCompass.diff raw prev ∧
    |TripleCompass.diff (Compass.filterAngle prev raw) prev| ≤ 36 ∧
    Compass.filterAngle (359 : K) 1 = 359.4 := by
  have hA : (Compass.ALPHA : K) = 2 / 10 := by simp only [Compass.ALPHA]; norm_num
  have hshape : ∀ p r : K, Compass.filterAngle p r
      = TripleCompass.norm360 (p + TripleCompass.diff r p * (2 / 10)) := by
    intro p r
    simp only [Compass.filterAngle, TripleCompass.norm360, TripleCompass.diff, hA]
  obtain ⟨hrange, hdiff⟩ := TripleCompass.blend_spec prev raw (2 / 10) hp.1 hp.2 hr.1
    (by norm_num) (by norm_num)
  obtain ⟨_, _, hlo, hhi⟩ := TripleCompass.diff_spec raw prev (by linarith [hp.2, hr.1])
  rw [hshape prev raw, hA]
  refine ⟨hrange, by rw [hdiff]; ring, ?_, ?_⟩
  · rw [hdiff, abs_le]; constructor <;> linarith
  · rw [hshape 359 1]
    have hd : TripleCompass.diff (1 : K) 359 = 2 :=
      TripleCompass.diff_unique 1 359 2 1 (by norm_num) (by norm_num) (by norm_num) (by norm_num)
    rw [hd]
    exact TripleCompass.norm360_unique _ _ 0 (by norm_num) (by norm_num) (by norm_num)
      (by norm_num)

theorem Compass.filterAngle_short_arc_witness :
    (0 ≤ (350 : ℚ) ∧ (350 : ℚ) < 360) ∧ (0 ≤ (10 : ℚ) ∧ (10 : ℚ) < 360) ∧
    ((0 ≤ Compass.filterAngle (350 : ℚ) 10 ∧ Compass.filterAngle (350 : ℚ) 10 < 360) ∧
    TripleCompass.diff (Compass.filterAngle (350 : ℚ) 10) 350
      = Compass.ALPHA * TripleCompass.diff 10 350 ∧
    |TripleCompass.diff (Compass.filterAngle (350 : ℚ) 10) 350| ≤ 36 ∧
    Compass.filterAngle (359 : ℚ) 1 = 359.4) :=
  ⟨by norm_num, by norm_num,
    Compass.filterAngle_short_arc 350 10 (by norm_num) (by norm_num)⟩

/-! ## The gyroscope listener -/

namespace TripleCompass

/-- C4: with zero angular rate and a constant magnetic reference `m`, one
gyroscope step from a heading `c` with `diff(c, m) ≠ 0` gives a fused heading
`f` with `|diff(f, m)| = COMP_W * |diff(c, m)| < |diff(c, m)|`; after `n` such
steps the distance is `COMP_W ^ n * |diff(c, m)|`. -/
theorem fusion_converges {K : Type} [LinearOrderedField K] [FloorRing K]
    (E : JSMath K) (s : State K) (now : K) (nows : List K)
    (hc : 0 ≤ s.calcRef ∧ s.calcRef < 360) (hm : 0 ≤ s.magRef ∧ s.magRef < 360)
    (hd : diff s.calcRef s.magRef ≠ 0) :
    |diff (onGyroscope E s 0 now).calcRef s.magRef| = COMP_W * |diff s.calcRef s.magRef| ∧
    |diff (onGyroscope E s 0 now).calcRef s.magRef| < |diff s.calcRef s.magRef| ∧
    |diff (run E s (nows.map (Event.gyroscope 0))).calcRef s.magRef|
      = COMP_W ^ nows.length * |diff s.calcRef s.magRef| := by
  have hW0 : (0 : K) ≤ COMP_W := by simp only [COMP_W]; norm_num
  have hW1 : (COMP_W : K) < 1 := by simp only [COMP_W]; norm_num
  have hpos : 0 < |diff s.calcRef s.magRef| := abs_pos.mpr hd
  have hstep : |diff (onGyroscope E s 0 now).calcRef s.magRef|
      = COMP_W * |diff s.calcRef s.magRef| := by
    rw [(onGyroscope_zero_rate E s now hc.1 hc.2).1, (fuse_spec _ _ hc.1 hm.2).2, abs_mul,
      abs_of_nonneg hW0]
  refine ⟨hstep, ?_, ?_⟩
  · rw [hstep]; nlinarith
  · rw [run_zero_rate E nows s hc.1 hc.2 hm.1 hm.2, abs_mul, abs_of_nonneg (pow_nonneg hW0 _)]

theorem fusion_converges_witness :
    (0 ≤ (10 : ℝ) ∧ (10 : ℝ) < 360) ∧ (0 ≤ (350 : ℝ) ∧ (350 : ℝ) < 360) ∧
    diff (10 : ℝ) 350 ≠ 0 ∧
    |diff (onGyroscope (⟨Real.pi, fun y x => Complex.arg ⟨x, y⟩,
        fun x y z => Real.sqrt (x ^ 2 + y ^ 2 + z ^ 2)⟩ : JSMath ℝ)
        (⟨0, 0, none, 0, (Vec3.ofField 0 0 0), 350, 10, 0⟩ : State ℝ) 0 20).calcRef 350|
      < |diff (10 : ℝ) 350| := by
  have hd : diff (10 : ℝ) 350 = 20 :=
    diff_unique 10 350 20 1 (by norm_num) (by norm_num) (by norm_num) (by norm_num)
  exact ⟨by norm_num, by norm_num, by rw [hd]; norm_num,
    (fusion_converges (⟨Real.pi, fun y x => Complex.arg ⟨x, y⟩,
        fun x y z => Real.sqrt (x ^ 2 + y ^ 2 + z ^ 2)⟩ : JSMath ℝ)
      (⟨0, 0, none, 0, (Vec3.ofField 0 0 0), 350, 10, 0⟩ : State ℝ) 20 [40, 60]
      (by norm_num) (by norm_num) (by rw [hd]; norm_num)).2.1⟩

/-- C9: for headings `g`, `m` in `[0, 360)` with `g - m` neither `180` nor
`-180`, the fusion expression equals `norm360(g + diff(m, g) * (1 - COMP_W))`,
the low-pass expression with previous `g`, raw `m` and gain `1 - COMP_W`. -/
theorem fuse_eq_blend {K : Type} [LinearOrderedField K] [FloorRing K] (g m : K)
    (hg : 0 ≤ g ∧ g < 360) (hm : 0 ≤ m ∧ m < 360) (h1 : g - m ≠ 180) (h2 : g - m ≠ -180) :
    fuse g m = norm360 (g + diff m g * (1 - COMP_W)) := by
  obtain ⟨i, hi, hlo, hhi⟩ := diff_spec g m (by linarith [hg.1, hm.2])
  have hne : diff g m ≠ -180 := by
    intro h
    rw [h] at hi
    have hi1 : (i : K) < 1 := by linarith [hg.2, hm.1]
    have hi2 : (-2 : K) < (i : K) := by linarith [hg.1, hm.2]
    have hi1' : i < 1 := by exact_mod_cast hi1
    have hi2' : -2 < i := by exact_mod_cast hi2
    have hcase : i = -1 ∨ i = 0 := by omega
    rcases hcase with rfl | rfl
    · apply h1; push_cast at hi; linarith
    · apply h2; push_cast at hi; linarith
  have hlt : -180 < diff g m := lt_of_le_of_ne hlo (Ne.symm hne)
  have hsym : diff m g = -diff g m :=
    diff_unique m g _ (-i) (by linarith [hg.2, hm.1]) (by linarith) (by linarith)
      (by rw [hi]; push_cast; ring)
  simp only [fuse]
  rw [hsym]
  congr 1
  ring

theorem fuse_eq_blend_witness :
    (0 ≤ (10 : ℚ) ∧ (10 : ℚ) < 360) ∧ (0 ≤ (350 : ℚ) ∧ (350 : ℚ) < 360) ∧
    (10 : ℚ) - 350 ≠ 180 ∧ (10 : ℚ) - 350 ≠ -180 ∧
    fuse (10 : ℚ) 350 = norm360 (10 + diff 350 10 * (1 - COMP_W)) :=
  ⟨by norm_num, by norm_num, by norm_num, by norm_num,
    fuse_eq_blend 10 350 (by norm_num) (by norm_num) (by norm_num) (by norm_num)⟩

end TripleCompass

namespace TripleCompass

/-- C5 (counterexample): initialised at time `0`, a first gyroscope sample
with rate `1 rad/s` arriving at time `1000` ms has increment `180 / π`, which
is not zero, and the integrated heading differs from the previous calculated
heading. -/
theorem first_gyro_sample_integrates :
    gyroDelta (⟨Real.pi, fun y x => Complex.arg ⟨x, y⟩,
        fun x y z => Real.sqrt (x ^ 2 + y ^ 2 + z ^ 2)⟩ : JSMath ℝ) 1 1000
        (init (0 : ℝ)).lastGyro = 180 / Real.pi ∧
    gyroDelta (⟨Real.pi, fun y x => Complex.arg ⟨x, y⟩,
        fun x y z => Real.sqrt (x ^ 2 + y ^ 2 + z ^ 2)⟩ : JSMath ℝ) 1 1000
        (init (0 : ℝ)).lastGyro ≠ 0 ∧
    norm360 ((init (0 : ℝ)).calcRef + gyroDelta (⟨Real.pi, fun y x => Complex.arg ⟨x, y⟩,
        fun x y z => Real.sqrt (x ^ 2 + y ^ 2 + z ^ 2)⟩ : JSMath ℝ) 1 1000
        (init (0 : ℝ)).lastGyro) ≠ (init (0 : ℝ)).calcRef := by
  have hπ : (0 : ℝ) < Real.pi := Real.pi_pos
  have hval : gyroDelta (⟨Real.pi, fun y x => Complex.arg ⟨x, y⟩,
        fun x y z => Real.sqrt (x ^ 2 + y ^ 2 + z ^ 2)⟩ : JSMath ℝ) 1 1000
        (init (0 : ℝ)).lastGyro = 180 / Real.pi := by
    simp only [gyroDelta, toDeg, init]; norm_num
  have hpos : (0 : ℝ) < 180 / Real.pi := div_pos (by norm_num) hπ
  have hlt : (180 : ℝ) / Real.pi < 360 := by
    rw [div_lt_iff₀ hπ]; nlinarith [Real.pi_gt_three]
  refine ⟨hval, ?_, ?_⟩
  · rw [hval]; exact ne_of_gt hpos
  · rw [hval]
    have h0 : (init (0 : ℝ)).calcRef = 0 := rfl
    rw [h0, zero_add, norm360_of_heading _ (le_of_lt hpos) hlt]
    exact ne_of_gt hpos

/-- C5 (amended): on the first gyroscope sample the stored timestamp is the
initialisation time `t0`, so the increment is `toDeg(z) * (now - t0) / 1000`,
which is zero exactly when `z = 0` or `now = t0`; in that case the integrated
heading equals the previous calculated heading; the handler stores `now`. -/
theorem first_gyro_sample {K : Type} [LinearOrderedField K] [FloorRing K]
    (E : JSMath K) (t0 z now : K) (hPI : E.PI ≠ 0) :
    gyroDelta E z now (init t0).lastGyro = toDeg E z * ((now - t0) / 1000) ∧
    (gyroDelta E z now (init t0).lastGyro = 0 ↔ z = 0 ∨ now = t0) ∧
    (gyroDelta E z now (init t0).lastGyro = 0 →
      norm360 ((init t0).calcRef + gyroDelta E z now (init t0).lastGyro) = (init t0).calcRef) ∧
    (onGyroscope E (init t0) z now).lastGyro = now := by
  refine ⟨rfl, ?_, ?_, rfl⟩
  · simp only [gyroDelta, toDeg, init]
    constructor
    · intro h
      rcases mul_eq_zero.mp h with h | h
      · left
        rcases div_eq_zero_iff.mp h with h | h
        · rcases mul_eq_zero.mp h with h | h
          · exact h
          · norm_num at h
        · exact absurd h hPI
      · right
        rcases div_eq_zero_iff.mp h with h | h
        · linarith
        · norm_num at h
    · rintro (h | h)
      · rw [h]; simp
      · rw [h]; simp
  · intro h
    rw [h]
    have h0 : (init t0).calcRef = 0 := rfl
    rw [h0, add_zero]
    exact norm360_of_heading 0 le_rfl (by norm_num)

theorem first_gyro_sample_witness :
    Real.pi ≠ 0 ∧
    (gyroDelta (⟨Real.pi, fun y x => Complex.arg ⟨x, y⟩,
        fun x y z => Real.sqrt (x ^ 2 + y ^ 2 + z ^ 2)⟩ : JSMath ℝ) 1 1020
        (init (1000 : ℝ)).lastGyro = 0 ↔ (1 : ℝ) = 0 ∨ (1020 : ℝ) = 1000) :=
  ⟨Real.pi_ne_zero,
    (first_gyro_sample (⟨Real.pi, fun y x => Complex.arg ⟨x, y⟩,
        fun x y z => Real.sqrt (x ^ 2 + y ^ 2 + z ^ 2)⟩ : JSMath ℝ) 1000 1 1020
      Real.pi_ne_zero).2.1⟩

/-- A position report with a numeric heading: a negative one leaves the
state as it was, one that is `≥ 0` stores `Math.round(h)`. -/
theorem onPosition_number {K : Type} [LinearOrderedField K] [FloorRing K]
    (s : State K) (h : K) :
    (h < 0 → onPosition s (some h) = s) ∧
    (0 ≤ h → (onPosition s (some h)).gpsHeading = some (mathRound h)) := by
  constructor
  · intro hh
    simp only [onPosition, toNumber, ge_iff_le, if_neg (not_le.mpr hh)]
  · intro hh
    simp only [onPosition, toNumber, ge_iff_le, if_pos hh]

/-- A run of position reports that all carry a negative number leaves the
state as it was. -/
theorem onPosition_negative_run {K : Type} [LinearOrderedField K] [FloorRing K]
    (hs : List K) (hneg : ∀ h ∈ hs, h < 0) :
    ∀ s : State K, (hs.map some).foldl onPosition s = s := by
  induction hs with
  | nil => intro s; rfl
  | cons h t ih =>
    intro s
    rw [List.map_cons, List.foldl_cons,
      (onPosition_number s h).1 (hneg h (List.mem_cons_self h t))]
    exact ih (fun x hx => hneg x (List.mem_cons_of_mem h hx)) s

/-- The listeners other than the position callback leave the satellite
heading alone. -/
theorem other_listeners_keep_gpsHeading {K : Type} [LinearOrderedField K] [FloorRing K]
    (E : JSMath K) (s : State K) (e : Event K) (he : ∀ h, e ≠ Event.position h) :
    (step E s e).gpsHeading = s.gpsHeading := by
  cases e with
  | accelerometer a => rfl
  | magnetometer m => rfl
  | gyroscope z now => rfl
  | heading t g => rfl
  | position h => exact absurd rfl (he h)

/-- C6 (evaluation at the failing input): a position report whose heading is
`null` passes the test `h >= 0` and stores `Math.round(null) = 0`: from the
initial state the satellite heading goes from absent to `0`, and an earlier
value `90` is replaced by `0`. -/
theorem null_heading_sets_satellite :
    (init (0 : ℚ)).gpsHeading = none ∧
    (onPosition (init (0 : ℚ)) none).gpsHeading = some 0 ∧
    (onPosition (⟨0, 0, some 90, 0, Vec3.ofField 0 0 0, 0, 0, 0⟩ : State ℚ) none).gpsHeading
      = some 0 := by
  have hr : mathRound (0 : ℚ) = 0 := by
    simp only [mathRound]
    rw [Int.floor_eq_iff]
    constructor <;> norm_num
  refine ⟨rfl, ?_, ?_⟩
  · simp only [onPosition, toNumber, ge_iff_le, le_refl, if_true, hr]
  · simp only [onPosition, toNumber, ge_iff_le, le_refl, if_true, hr]

end TripleCompass

/-! ## The magnetometer listener -/

section Magnetometer
variable {K : Type} [LinearOrderedField K] [FloorRing K]

/-- `Math.round` of a heading in `[0, 360)` is an integer from `0` to `360`. -/
theorem mathRound_heading (x : K) (h0 : 0 ≤ x) (h1 : x < 360) :
    0 ≤ mathRound x ∧ mathRound x ≤ 360 := by
  constructor
  · exact Int.floor_nonneg.mpr (by linarith)
  · have h : mathRound x < 361 := by
      simp only [mathRound]
      rw [Int.floor_lt]
      push_cast
      linarith
    omega

namespace TripleCompass

omit [FloorRing K] in
theorem JSNum.val_signed (v : K) (b : Bool) : (JSNum.signed v b).val = v := by
  unfold JSNum.signed
  split_ifs with h
  · simp only [JSNum.val, h.1]
  · rfl

omit [FloorRing K] in
theorem JSNum.sgn_signed_zero (b : Bool) : (JSNum.signed (0 : K) b).sgn = b := by
  cases b <;> simp [JSNum.signed, JSNum.sgn]

omit [FloorRing K] in
/-- `Math.atan2` returns an angle between `-π` and `π` as soon as the
arctangent of values does. -/
theorem jsAtan2_range (E : JSMath K) (hPI : 0 < E.PI)
    (hat : ∀ y x : K, -E.PI ≤ E.atan2 y x ∧ E.atan2 y x ≤ E.PI) (y x : JSNum K) :
    -E.PI ≤ jsAtan2 E y x ∧ jsAtan2 E y x ≤ E.PI := by
  unfold jsAtan2
  split_ifs
  · constructor <;> linarith
  · constructor <;> linarith
  · exact hat _ _

omit [FloorRing K] in
/-- The raw heading is in `[0, 360)` as soon as the arctangent returns an
angle between `-π` and `π`. -/
theorem rawMag_range (E : JSMath K) (hPI : 0 < E.PI)
    (hat : ∀ y x : K, -E.PI ≤ E.atan2 y x ∧ E.atan2 y x ≤ E.PI) (grav m : Vec3 K) :
    0 ≤ rawMag E grav m ∧ rawMag E grav m < 360 := by
  obtain ⟨hlo, hhi⟩ := jsAtan2_range E hPI hat (horizontal E grav m).2 (horizontal E grav m).1
  have h1 : -180 ≤ toDeg E (jsAtan2 E (horizontal E grav m).2 (horizontal E grav m).1) := by
    simp only [toDeg]
    rw [le_div_iff₀ hPI]; linarith
  have h2 : toDeg E (jsAtan2 E (horizontal E grav m).2 (horizontal E grav m).1) ≤ 180 := by
    simp only [toDeg]
    rw [div_le_iff₀ hPI]; linarith
  simp only [rawMag]
  split_ifs with h
  · constructor <;> linarith
  · constructor <;> linarith [not_lt.mp h]

omit [FloorRing K] in
/-- With the initial gravity `(+0, +0, +0)` the norm falls back to `1`, both
projected components are zeros whose signs come from the signs of the
sample, and the raw heading is `180` when `hx` is `-0` and `0` otherwise. -/
theorem rawMag_zero_gravity (E : JSMath K) (h0 : E.hypot 0 0 0 = 0) (ha : E.atan2 0 0 = 0)
    (hPI : E.PI ≠ 0) (m : Vec3 K) :
    gravNorm E (Vec3.ofField 0 0 0) = 1 ∧
    horizontal E (Vec3.ofField 0 0 0) m
      = (JSNum.signed 0 (m.y.sgn && !m.z.sgn), JSNum.signed 0 (m.z.sgn && !m.x.sgn)) ∧
    rawMag E (Vec3.ofField 0 0 0) m = if (m.y.sgn && !m.z.sgn) = true then 180 else 0 := by
  have hg : gravNorm E (Vec3.ofField 0 0 0) = 1 := by
    simp only [gravNorm, Vec3.ofField, JSNum.val, h0, if_true]
  have hz : JSNum.div (JSNum.ofField (0 : K)) (JSNum.ofField 1) = JSNum.ofField 0 := by
    simp [JSNum.div, JSNum.signed, JSNum.val, JSNum.sgn]
  have hmul : ∀ a : JSNum K, a.mul (JSNum.ofField 0) = JSNum.signed 0 a.sgn := by
    intro a
    simp [JSNum.mul, JSNum.val, JSNum.sgn]
  have hh : horizontal E (Vec3.ofField 0 0 0) m
      = (JSNum.signed 0 (m.y.sgn && !m.z.sgn), JSNum.signed 0 (m.z.sgn && !m.x.sgn)) := by
    have hg2 : gravNorm E ⟨JSNum.ofField 0, JSNum.ofField 0, JSNum.ofField 0⟩ = 1 := hg
    simp only [horizontal, Vec3.ofField, hg2, hz, hmul, JSNum.sub, JSNum.val_signed,
      JSNum.sgn_signed_zero, sub_zero]
  refine ⟨hg, hh, ?_⟩
  have h180 : E.PI * 180 / E.PI = 180 := by
    rw [mul_comm, mul_div_assoc, div_self hPI, mul_one]
  have hn180 : -(E.PI * 180) / E.PI = -180 := by
    rw [neg_div, h180]
  simp only [rawMag, hh, jsAtan2, toDeg, JSNum.val_signed, JSNum.sgn_signed_zero, true_and]
  cases hb1 : (m.y.sgn && !m.z.sgn) <;> cases hb2 : (m.z.sgn && !m.x.sgn)
  · simp [ha]
  · simp [ha]
  · simp [h180]
  · simp only [hn180, neg_mul, Bool.true_eq_false, if_false, if_true]
    norm_num

/-- The magnetometer listener keeps a stored heading a heading. -/
theorem onMagnetometer_magRef_range (E : JSMath K) (hPI : 0 < E.PI)
    (hat : ∀ y x : K, -E.PI ≤ E.atan2 y x ∧ E.atan2 y x ≤ E.PI) (s : State K) (m : Vec3 K)
    (h0 : 0 ≤ s.magRef) (h1 : s.magRef < 360) :
    0 ≤ (onMagnetometer E s m).magRef ∧ (onMagnetometer E s m).magRef < 360 := by
  have hL0 : (0 : K) ≤ LP_ALPHA := by simp only [LP_ALPHA]; norm_num
  have hL1 : (LP_ALPHA : K) ≤ 1 := by simp only [LP_ALPHA]; norm_num
  exact (blend_spec s.magRef (rawMag E s.gravRef m) LP_ALPHA h0 h1
    (rawMag_range E hPI hat s.gravRef m).1 hL0 hL1).1

/-- Every listener keeps the stored magnetic reference in `[0, 360)`. -/
theorem step_magRef_range (E : JSMath K) (hPI : 0 < E.PI)
    (hat : ∀ y x : K, -E.PI ≤ E.atan2 y x ∧ E.atan2 y x ≤ E.PI) (s : State K) (e : Event K)
    (h0 : 0 ≤ s.magRef) (h1 : s.magRef < 360) :
    0 ≤ (step E s e).magRef ∧ (step E s e).magRef < 360 := by
  cases e with
  | accelerometer a => exact ⟨h0, h1⟩
  | magnetometer m => exact onMagnetometer_magRef_range E hPI hat s m h0 h1
  | gyroscope z now => exact ⟨h0, h1⟩
  | heading t g => exact ⟨h0, h1⟩
  | position h =>
    simp only [step, onPosition]
    split_ifs
    · exact ⟨h0, h1⟩
    · exact ⟨h0, h1⟩

theorem run_magRef_range (E : JSMath K) (hPI : 0 < E.PI)
    (hat : ∀ y x : K, -E.PI ≤ E.atan2 y x ∧ E.atan2 y x ≤ E.PI) (evs : List (Event K)) :
    ∀ s : State K, 0 ≤ s.magRef → s.magRef < 360 →
      0 ≤ (run E s evs).magRef ∧ (run E s evs).magRef < 360 := by
  induction evs with
  | nil => intro s h0 h1; exact ⟨h0, h1⟩
  | cons e es ih =>
    intro s h0 h1
    obtain ⟨h0', h1'⟩ := step_magRef_range E hPI hat s e h0 h1
    exact ih (step E s e) h0' h1'

end TripleCompass
end Magnetometer

/-- The real `Math.atan2` is `Complex.arg`, an angle in `(-π, π]`. -/
theorem real_atan2_range (y x : ℝ) :
    -Real.pi ≤ Complex.arg ⟨x, y⟩ ∧ Complex.arg ⟨x, y⟩ ≤ Real.pi :=
  ⟨le_of_lt (Complex.neg_pi_lt_arg _), Complex.arg_le_pi _⟩

/-- The real `Math.atan2(0, 0)` is `0`. -/
theorem real_atan2_zero : Complex.arg ⟨0, 0⟩ = 0 := Complex.arg_zero

/-- The real `Math.hypot(0, 0, 0)` is `0`. -/
theorem real_hypot_zero : Real.sqrt ((0 : ℝ) ^ 2 + 0 ^ 2 + 0 ^ 2) = 0 := by simp

namespace TripleCompass

/-- C8: if the stored magnetic reference is in `[0, 360)`, then for every
gravity vector and every magnetometer vector the raw heading is in `[0, 360)`
and the new stored reference is again in `[0, 360)`; starting from the initial
state it is in `[0, 360)` after any sequence of notifications.  `Math.PI` is
positive and `Math.atan2` ranges over `[-π, π]`. -/
theorem magRef_stays_heading {K : Type} [LinearOrderedField K] [FloorRing K]
    (E : JSMath K) (s : State K) (m : Vec3 K) (t0 : K) (evs : List (Event K))
    (hPI : 0 < E.PI) (hat : ∀ y x : K, -E.PI ≤ E.atan2 y x ∧ E.atan2 y x ≤ E.PI)
    (hs : 0 ≤ s.magRef ∧ s.magRef < 360) :
    (0 ≤ rawMag E s.gravRef m ∧ rawMag E s.gravRef m < 360) ∧
    (0 ≤ (onMagnetometer E s m).magRef ∧ (onMagnetometer E s m).magRef < 360) ∧
    (0 ≤ (run E (init t0) evs).magRef ∧ (run E (init t0) evs).magRef < 360) :=
  ⟨rawMag_range E hPI hat s.gravRef m,
    onMagnetometer_magRef_range E hPI hat s m hs.1 hs.2,
    run_magRef_range E hPI hat evs (init t0) (le_refl (0 : K)) (by
      show (0 : K) < 360
      norm_num)⟩

theorem magRef_stays_heading_witness :
    0 < Real.pi ∧
    (∀ y x : ℝ, -Real.pi ≤ Complex.arg ⟨x, y⟩ ∧ Complex.arg ⟨x, y⟩ ≤ Real.pi) ∧
    (0 ≤ (350 : ℝ) ∧ (350 : ℝ) < 360) ∧
    (0 ≤ (run (⟨Real.pi, fun y x => Complex.arg ⟨x, y⟩,
          fun x y z => Real.sqrt (x ^ 2 + y ^ 2 + z ^ 2)⟩ : JSMath ℝ) (init (0 : ℝ))
          [Event.magnetometer (Vec3.ofField 1 0 0), Event.accelerometer (Vec3.ofField 0 0 1),
            Event.magnetometer (Vec3.ofField 1 0 0)]).magRef ∧
      (run (⟨Real.pi, fun y x => Complex.arg ⟨x, y⟩,
          fun x y z => Real.sqrt (x ^ 2 + y ^ 2 + z ^ 2)⟩ : JSMath ℝ) (init (0 : ℝ))
          [Event.magnetometer (Vec3.ofField 1 0 0), Event.accelerometer (Vec3.ofField 0 0 1),
            Event.magnetometer (Vec3.ofField 1 0 0)]).magRef < 360) :=
  ⟨Real.pi_pos, real_atan2_range, by norm_num,
    (magRef_stays_heading (⟨Real.pi, fun y x => Complex.arg ⟨x, y⟩,
        fun x y z => Real.sqrt (x ^ 2 + y ^ 2 + z ^ 2)⟩ : JSMath ℝ)
      (⟨0, 0, none, 0, (Vec3.ofField 0 0 1), 350, 0, 0⟩ : State ℝ) (Vec3.ofField 1 0 0) 0
      [Event.magnetometer (Vec3.ofField 1 0 0), Event.accelerometer (Vec3.ofField 0 0 1),
        Event.magnetometer (Vec3.ofField 1 0 0)]
      Real.pi_pos real_atan2_range (by norm_num)).2.2⟩

/-- C10 (counterexample): in the initial state, with no gravity sample yet,
the magnetometer sample `(3, -4, 5)` has raw heading `180` and stores the
smoothed heading `333`, while the sample `(3, 4, 5)` has raw heading `0` and
stores `0`: the result depends on the magnetometer vector. -/
theorem zero_gravity_depends_on_sample :
    rawMag (⟨Real.pi, fun y x => Complex.arg ⟨x, y⟩,
        fun x y z => Real.sqrt (x ^ 2 + y ^ 2 + z ^ 2)⟩ : JSMath ℝ)
      (init (0 : ℝ)).gravRef (Vec3.ofField 3 (-4) 5) = 180 ∧
    (onMagnetometer (⟨Real.pi, fun y x => Complex.arg ⟨x, y⟩,
        fun x y z => Real.sqrt (x ^ 2 + y ^ 2 + z ^ 2)⟩ : JSMath ℝ)
      (init (0 : ℝ)) (Vec3.ofField 3 (-4) 5)).magRef = 333 ∧
    rawMag (⟨Real.pi, fun y x => Complex.arg ⟨x, y⟩,
        fun x y z => Real.sqrt (x ^ 2 + y ^ 2 + z ^ 2)⟩ : JSMath ℝ)
      (init (0 : ℝ)).gravRef (Vec3.ofField 3 4 5) = 0 ∧
    (onMagnetometer (⟨Real.pi, fun y x => Complex.arg ⟨x, y⟩,
        fun x y z => Real.sqrt (x ^ 2 + y ^ 2 + z ^ 2)⟩ : JSMath ℝ)
      (init (0 : ℝ)) (Vec3.ofField 3 4 5)).magRef = 0 := by
  have hra := (rawMag_zero_gravity (⟨Real.pi, fun y x => Complex.arg ⟨x, y⟩,
        fun x y z => Real.sqrt (x ^ 2 + y ^ 2 + z ^ 2)⟩ : JSMath ℝ)
      real_hypot_zero real_atan2_zero Real.pi_ne_zero (Vec3.ofField 3 (-4) 5)).2.2
  have hrb := (rawMag_zero_gravity (⟨Real.pi, fun y x => Complex.arg ⟨x, y⟩,
        fun x y z => Real.sqrt (x ^ 2 + y ^ 2 + z ^ 2)⟩ : JSMath ℝ)
      real_hypot_zero real_atan2_zero Real.pi_ne_zero (Vec3.ofField 3 4 5)).2.2
  have ha : rawMag (⟨Real.pi, fun y x => Complex.arg ⟨x, y⟩,
        fun x y z => Real.sqrt (x ^ 2 + y ^ 2 + z ^ 2)⟩ : JSMath ℝ)
      (Vec3.ofField 0 0 0) (Vec3.ofField 3 (-4) 5) = 180 := by
    rw [hra]; simp [Vec3.ofField, JSNum.sgn]
  have hb : rawMag (⟨Real.pi, fun y x => Complex.arg ⟨x, y⟩,
        fun x y z => Real.sqrt (x ^ 2 + y ^ 2 + z ^ 2)⟩ : JSMath ℝ)
      (Vec3.ofField 0 0 0) (Vec3.ofField 3 4 5) = 0 := by
    rw [hrb]; simp [Vec3.ofField, JSNum.sgn]
  have hd1 : diff (180 : ℝ) 0 = -180 :=
    diff_unique 180 0 (-180) (-1) (by norm_num) (by norm_num) (by norm_num) (by norm_num)
  have hd2 : diff (0 : ℝ) 0 = 0 :=
    diff_unique 0 0 0 0 (by norm_num) (by norm_num) (by norm_num) (by norm_num)
  have hs1 : smoothMag (0 : ℝ) 180 = 333 := by
    simp only [smoothMag, hd1, LP_ALPHA]
    exact norm360_unique _ _ 1 (by norm_num) (by norm_num) (by norm_num) (by norm_num)
  have hs2 : smoothMag (0 : ℝ) 0 = 0 := by
    simp only [smoothMag, hd2, LP_ALPHA]
    exact norm360_unique _ _ 0 (by norm_num) (by norm_num) (by norm_num) (by norm_num)
  refine ⟨ha, ?_, hb, ?_⟩
  · show smoothMag (0 : ℝ) (rawMag _ (Vec3.ofField 0 0 0) (Vec3.ofField 3 (-4) 5)) = 333
    rw [ha, hs1]
  · show smoothMag (0 : ℝ) (rawMag _ (Vec3.ofField 0 0 0) (Vec3.ofField 3 4 5)) = 0
    rw [hb, hs2]

/-- C10 (amended): while the gravity estimate is the initial `(+0, +0, +0)`,
the norm falls back to `1` and `hx`, `hy` are zeros; `hx` is the negative
zero exactly when `my` has its sign bit set and `mz` has not; the raw heading
is `180` in that case and `0` otherwise, and the new smoothed heading is
`norm360(prev + diff(raw, prev) * LP_ALPHA)` for that raw heading.
`Math.hypot(0, 0, 0)` and the arctangent at `(0, 0)` are `0`, `Math.PI` is
not. -/
theorem zero_gravity_raw_heading {K : Type} [LinearOrderedField K] [FloorRing K]
    (E : JSMath K) (s : State K) (m : Vec3 K)
    (h0 : E.hypot 0 0 0 = 0) (ha : E.atan2 0 0 = 0) (hPI : E.PI ≠ 0)
    (hg : s.gravRef = Vec3.ofField 0 0 0) :
    gravNorm E s.gravRef = 1 ∧
    ((horizontal E s.gravRef m).1.val = 0 ∧ (horizontal E s.gravRef m).2.val = 0) ∧
    ((horizontal E s.gravRef m).1 = JSNum.negZero ↔ (m.y.sgn = true ∧ m.z.sgn = false)) ∧
    rawMag E s.gravRef m = (if m.y.sgn = true ∧ m.z.sgn = false then 180 else 0) ∧
    (onMagnetometer E s m).magRef
      = norm360 (s.magRef
          + diff (if m.y.sgn = true ∧ m.z.sgn = false then 180 else 0) s.magRef * LP_ALPHA) := by
  obtain ⟨h1, h2, h3⟩ := rawMag_zero_gravity E h0 ha hPI m
  have hcond : ((m.y.sgn && !m.z.sgn) = true) ↔ (m.y.sgn = true ∧ m.z.sgn = false) := by
    cases m.y.sgn <;> cases m.z.sgn <;> simp
  have h3b : rawMag E (Vec3.ofField 0 0 0) m
      = (if m.y.sgn = true ∧ m.z.sgn = false then 180 else 0) := by
    rw [h3]
    by_cases hc : (m.y.sgn && !m.z.sgn) = true
    · rw [if_pos hc, if_pos (hcond.mp hc)]
    · rw [if_neg hc, if_neg (fun h => hc (hcond.mpr h))]
  rw [hg]
  refine ⟨h1, ?_, ?_, h3b, ?_⟩
  · rw [h2]
    exact ⟨JSNum.val_signed _ _, JSNum.val_signed _ _⟩
  · rw [h2, ← hcond]
    show JSNum.signed 0 (m.y.sgn && !m.z.sgn) = JSNum.negZero ↔ _
    cases (m.y.sgn && !m.z.sgn) <;> simp [JSNum.signed]
  · simp only [onMagnetometer, smoothMag, hg, h3b]

theorem zero_gravity_raw_heading_witness :
    Real.sqrt ((0 : ℝ) ^ 2 + 0 ^ 2 + 0 ^ 2) = 0 ∧ Complex.arg ⟨0, 0⟩ = 0 ∧ Real.pi ≠ 0 ∧
    (init (1000 : ℝ)).gravRef = Vec3.ofField 0 0 0 ∧
    rawMag (⟨Real.pi, fun y x => Complex.arg ⟨x, y⟩,
        fun x y z => Real.sqrt (x ^ 2 + y ^ 2 + z ^ 2)⟩ : JSMath ℝ)
      (init (1000 : ℝ)).gravRef (Vec3.ofField 3 (-4) 5)
      = (if (Vec3.ofField (3 : ℝ) (-4) 5).y.sgn = true ∧ (Vec3.ofField (3 : ℝ) (-4) 5).z.sgn = false
          then 180 else 0) :=
  ⟨real_hypot_zero, real_atan2_zero, Real.pi_ne_zero, rfl,
    (zero_gravity_raw_heading (⟨Real.pi, fun y x => Complex.arg ⟨x, y⟩,
        fun x y z => Real.sqrt (x ^ 2 + y ^ 2 + z ^ 2)⟩ : JSMath ℝ)
      (init (1000 : ℝ)) (Vec3.ofField 3 (-4) 5) real_hypot_zero real_atan2_zero
      Real.pi_ne_zero rfl).2.2.2.1⟩

/-- C7 (counterexample): with a stored smoothed heading of `359.9` and no
gravity sample yet, a magnetometer sample publishes `360`; and a gyroscope
sample with zero rate on a fused heading of `359.8` equal to the magnetic
reference keeps the fused heading at `359.8` and publishes `360`. -/
theorem published_heading_reaches_360 :
    (onMagnetometer (⟨Real.pi, fun y x => Complex.arg ⟨x, y⟩,
        fun x y z => Real.sqrt (x ^ 2 + y ^ 2 + z ^ 2)⟩ : JSMath ℝ)
      (⟨0, 0, none, 0, (Vec3.ofField 0 0 0), 359.9, 0, 0⟩ : State ℝ) (Vec3.ofField 1 0 0)).magHeading = 360 ∧
    (onGyroscope (⟨Real.pi, fun y x => Complex.arg ⟨x, y⟩,
        fun x y z => Real.sqrt (x ^ 2 + y ^ 2 + z ^ 2)⟩ : JSMath ℝ)
      (⟨0, 0, none, 0, (Vec3.ofField 0 0 0), 359.8, 359.8, 0⟩ : State ℝ) 0 20).calcRef = 359.8 ∧
    (onGyroscope (⟨Real.pi, fun y x => Complex.arg ⟨x, y⟩,
        fun x y z => Real.sqrt (x ^ 2 + y ^ 2 + z ^ 2)⟩ : JSMath ℝ)
      (⟨0, 0, none, 0, (Vec3.ofField 0 0 0), 359.8, 359.8, 0⟩ : State ℝ) 0 20).calcHeading = 360 := by
  have hraw := (rawMag_zero_gravity (⟨Real.pi, fun y x => Complex.arg ⟨x, y⟩,
        fun x y z => Real.sqrt (x ^ 2 + y ^ 2 + z ^ 2)⟩ : JSMath ℝ)
      real_hypot_zero real_atan2_zero Real.pi_ne_zero (Vec3.ofField 1 0 0)).2.2
  have hraw0 : rawMag (⟨Real.pi, fun y x => Complex.arg ⟨x, y⟩,
        fun x y z => Real.sqrt (x ^ 2 + y ^ 2 + z ^ 2)⟩ : JSMath ℝ)
      (Vec3.ofField 0 0 0) (Vec3.ofField 1 0 0) = 0 := by
    rw [hraw]; simp [Vec3.ofField, JSNum.sgn]
  have hd : diff (0 : ℝ) 359.9 = 0.1 :=
    diff_unique 0 359.9 0.1 1 (by norm_num) (by norm_num) (by norm_num) (by norm_num)
  have hsm : smoothMag (359.9 : ℝ) 0 = 359.915 := by
    simp only [smoothMag, hd, LP_ALPHA]
    exact norm360_unique _ _ 0 (by norm_num) (by norm_num) (by norm_num) (by norm_num)
  have hr1 : mathRound (359.915 : ℝ) = 360 := by
    simp only [mathRound]
    rw [Int.floor_eq_iff]
    constructor <;> norm_num
  have hd2 : diff (359.8 : ℝ) 359.8 = 0 :=
    diff_unique 359.8 359.8 0 0 (by norm_num) (by norm_num) (by norm_num) (by norm_num)
  have hfu : fuse (359.8 : ℝ) 359.8 = 359.8 := by
    simp only [fuse, hd2, COMP_W]
    exact norm360_unique _ _ 0 (by norm_num) (by norm_num) (by norm_num) (by norm_num)
  have hr2 : mathRound (359.8 : ℝ) = 360 := by
    simp only [mathRound]
    rw [Int.floor_eq_iff]
    constructor <;> norm_num
  have hgy := (onGyroscope_zero_rate (⟨Real.pi, fun y x => Complex.arg ⟨x, y⟩,
        fun x y z => Real.sqrt (x ^ 2 + y ^ 2 + z ^ 2)⟩ : JSMath ℝ)
      (⟨0, 0, none, 0, (Vec3.ofField 0 0 0), 359.8, 359.8, 0⟩ : State ℝ) 20
      (by norm_num) (by norm_num)).1
  refine ⟨?_, ?_, ?_⟩
  · show mathRound (smoothMag (359.9 : ℝ) (rawMag _ (Vec3.ofField 0 0 0) (Vec3.ofField 1 0 0))) = 360
    rw [hraw0, hsm, hr1]
  · rw [hgy]; exact hfu
  · show mathRound (onGyroscope _ _ 0 20).calcRef = 360
    rw [hgy]
    show mathRound (fuse (359.8 : ℝ) 359.8) = 360
    rw [hfu, hr2]

/-- C7 (amended): for a stored smoothed heading in `[0, 360)`, every gravity
vector and every magnetometer sample, the value passed to `setMagHeading` is
an integer `v` with `0 ≤ v ≤ 360`; the same holds for the value passed to
`setCalcHeading` when the fused heading is in `[0, 360)`. -/
theorem published_heading_range {K : Type} [LinearOrderedField K] [FloorRing K]
    (E : JSMath K) (s : State K) (m : Vec3 K) (z now : K)
    (hPI : 0 < E.PI) (hat : ∀ y x : K, -E.PI ≤ E.atan2 y x ∧ E.atan2 y x ≤ E.PI)
    (hs : 0 ≤ s.magRef ∧ s.magRef < 360)
    (hf : 0 ≤ (onGyroscope E s z now).calcRef ∧ (onGyroscope E s z now).calcRef < 360) :
    (0 ≤ (onMagnetometer E s m).magHeading ∧ (onMagnetometer E s m).magHeading ≤ 360) ∧
    (0 ≤ (onGyroscope E s z now).calcHeading ∧ (onGyroscope E s z now).calcHeading ≤ 360) := by
  obtain ⟨h0, h1⟩ := onMagnetometer_magRef_range E hPI hat s m hs.1 hs.2
  exact ⟨mathRound_heading _ h0 h1, mathRound_heading _ hf.1 hf.2⟩

theorem published_heading_range_witness :
    0 < Real.pi ∧
    (∀ y x : ℝ, -Real.pi ≤ Complex.arg ⟨x, y⟩ ∧ Complex.arg ⟨x, y⟩ ≤ Real.pi) ∧
    (0 ≤ (350 : ℝ) ∧ (350 : ℝ) < 360) ∧
    (0 ≤ (onGyroscope (⟨Real.pi, fun y x => Complex.arg ⟨x, y⟩,
        fun x y z => Real.sqrt (x ^ 2 + y ^ 2 + z ^ 2)⟩ : JSMath ℝ)
        (⟨0, 0, none, 0, (Vec3.ofField 0 0 1), 350, 10, 0⟩ : State ℝ) 0 20).calcRef ∧
      (onGyroscope (⟨Real.pi, fun y x => Complex.arg ⟨x, y⟩,
        fun x y z => Real.sqrt (x ^ 2 + y ^ 2 + z ^ 2)⟩ : JSMath ℝ)
        (⟨0, 0, none, 0, (Vec3.ofField 0 0 1), 350, 10, 0⟩ : State ℝ) 0 20).calcRef < 360) ∧
    (0 ≤ (onMagnetometer (⟨Real.pi, fun y x => Complex.arg ⟨x, y⟩,
        fun x y z => Real.sqrt (x ^ 2 + y ^ 2 + z ^ 2)⟩ : JSMath ℝ)
        (⟨0, 0, none, 0, (Vec3.ofField 0 0 1), 350, 10, 0⟩ : State ℝ) (Vec3.ofField 1 0 0)).magHeading ∧
      (onMagnetometer (⟨Real.pi, fun y x => Complex.arg ⟨x, y⟩,
        fun x y z => Real.sqrt (x ^ 2 + y ^ 2 + z ^ 2)⟩ : JSMath ℝ)
        (⟨0, 0, none, 0, (Vec3.ofField 0 0 1), 350, 10, 0⟩ : State ℝ) (Vec3.ofField 1 0 0)).magHeading ≤ 360) := by
  have hgy := (onGyroscope_zero_rate (⟨Real.pi, fun y x => Complex.arg ⟨x, y⟩,
        fun x y z => Real.sqrt (x ^ 2 + y ^ 2 + z ^ 2)⟩ : JSMath ℝ)
      (⟨0, 0, none, 0, (Vec3.ofField 0 0 1), 350, 10, 0⟩ : State ℝ) 20 (by norm_num) (by norm_num)).1
  have hf : 0 ≤ (onGyroscope (⟨Real.pi, fun y x => Complex.arg ⟨x, y⟩,
        fun x y z => Real.sqrt (x ^ 2 + y ^ 2 + z ^ 2)⟩ : JSMath ℝ)
        (⟨0, 0, none, 0, (Vec3.ofField 0 0 1), 350, 10, 0⟩ : State ℝ) 0 20).calcRef ∧
      (onGyroscope (⟨Real.pi, fun y x => Complex.arg ⟨x, y⟩,
        fun x y z => Real.sqrt (x ^ 2 + y ^ 2 + z ^ 2)⟩ : JSMath ℝ)
        (⟨0, 0, none, 0, (Vec3.ofField 0 0 1), 350, 10, 0⟩ : State ℝ) 0 20).calcRef < 360 := by
    rw [hgy]
    exact (fuse_spec (10 : ℝ) 350 (by norm_num) (by norm_num)).1
  exact ⟨Real.pi_pos, real_atan2_range, by norm_num, hf,
    (published_heading_range (⟨Real.pi, fun y x => Complex.arg ⟨x, y⟩,
        fun x y z => Real.sqrt (x ^ 2 + y ^ 2 + z ^ 2)⟩ : JSMath ℝ)
      (⟨0, 0, none, 0, (Vec3.ofField 0 0 1), 350, 10, 0⟩ : State ℝ) (Vec3.ofField 1 0 0) 0 20
      Real.pi_pos real_atan2_range (by norm_num) hf).1⟩

end TripleCompass
